import Mathlib

set_option linter.unnecessarySeqFocus false

/-!
Verification of the OsciJtag core: a shallow embedding of the JTAG TAP
protocol layer from src/oscijtag/__init__.py.  Pure codec functions
(DmiValue, DtmControlValue) become Lean functions on natural numbers and
bit lists; the stateful TAP operations (detect_irlen, read_idcode, bypass,
read_dtmcontrol, read_dmi, write_dmi, check_connection) become functions
from an abstract TAP driver (the external pyftdi collaborator, whose
responses may depend on the call history) to a result together with the
trace of driver calls issued.
-/

set_option autoImplicit false

namespace OsciJtag

/-! ### Bit sequences

Modelled from the spec: the Bit Sequence data type of the external pyftdi
collaborator (not part of this repository's sources).  Per the spec it is
an ordered, fixed-length sequence of bits supporting construction from an
integer or literal bit string with explicit length, equality (equal length
and equal content), logical shift preserving the length, and conversion
to and from an unsigned integer.  We store the bits least-significant
first; a string written most-significant-bit first is reversed on entry.
-/

/-- Little-endian bits of a natural number, exactly n bits (truncating). -/
def natToBits : Nat → Nat → List Bool
  | _, 0 => []
  | v, n + 1 => (v % 2 == 1) :: natToBits (v / 2) n

/-- Natural number denoted by a little-endian bit list. -/
def bitsToNat : List Bool → Nat
  | [] => 0
  | b :: rest => (if b then 1 else 0) + 2 * bitsToNat rest

theorem length_natToBits (v n : Nat) : (natToBits v n).length = n := by
  induction n generalizing v with
  | zero => rfl
  | succ n ih => simp [natToBits, ih]

theorem bitsToNat_lt (l : List Bool) : bitsToNat l < 2 ^ l.length := by
  induction l with
  | nil => simp [bitsToNat]
  | cons b rest ih =>
    simp only [bitsToNat, List.length_cons, Nat.pow_succ]
    cases b <;> simp <;> omega

theorem bitsToNat_natToBits (n v : Nat) : bitsToNat (natToBits v n) = v % 2 ^ n := by
  induction n generalizing v with
  | zero => simp [natToBits, bitsToNat, Nat.mod_one]
  | succ n ih =>
    simp only [natToBits, bitsToNat, ih]
    rw [Nat.pow_succ, Nat.mul_comm (2 ^ n) 2, Nat.mod_mul]
    rcases Nat.mod_two_eq_zero_or_one v with h | h <;> simp [h]

theorem natToBits_bitsToNat (l : List Bool) : natToBits (bitsToNat l) l.length = l := by
  induction l with
  | nil => rfl
  | cons b rest ih =>
    simp only [bitsToNat, List.length_cons, natToBits]
    have h2 : ((if b then 1 else 0) + 2 * bitsToNat rest) / 2 = bitsToNat rest := by
      cases b <;> simp <;> omega
    have h1 : (((if b then 1 else 0) + 2 * bitsToNat rest) % 2 == 1) = b := by
      cases b <;> simp [Nat.add_mul_mod_self_left]
    rw [h1, h2, ih]

/-- A fixed-length bit sequence; bits are stored least-significant first. -/
structure BitSequence where
  bits : List Bool
deriving DecidableEq, Repr

namespace BitSequence

/-- Number of bits in the sequence. -/
def length (b : BitSequence) : Nat := b.bits.length

/-- Conversion to an unsigned integer (bit 0 is the least significant). -/
def toNat (b : BitSequence) : Nat := bitsToNat b.bits

/-- Construction from an integer with an explicit length. -/
def ofNat (v n : Nat) : BitSequence := ⟨natToBits v n⟩

/-- Construction from a bit-string literal written most-significant first. -/
def ofStringMsb (s : String) : BitSequence := ⟨(s.data.map fun c => c == '1').reverse⟩

/-- Construction from a bit-string literal written least-significant first. -/
def ofStringLsb (s : String) : BitSequence := ⟨s.data.map fun c => c == '1'⟩

/-- Logical shift towards the least-significant end (integer right shift),
preserving the length, as performed by the bypass operation. -/
def lsr (b : BitSequence) (count : Nat) : BitSequence :=
  ⟨b.bits.drop count ++ List.replicate count false⟩

@[simp] theorem length_ofNat (v n : Nat) : (ofNat v n).length = n :=
  length_natToBits v n

@[simp] theorem toNat_ofNat (v n : Nat) : (ofNat v n).toNat = v % 2 ^ n :=
  bitsToNat_natToBits n v

theorem toNat_lt (b : BitSequence) : b.toNat < 2 ^ b.length :=
  bitsToNat_lt b.bits

theorem ofNat_toNat (b : BitSequence) : ofNat b.toNat b.length = b := by
  cases b with
  | mk l =>
    simp only [ofNat, toNat, length]
    rw [natToBits_bitsToNat]

end BitSequence

/-! ### Arithmetic bridges for the bit-field operations of the codecs -/

theorem and_three_eq (x : Nat) : x &&& 0x03 = x % 4 := by
  have h := Nat.and_pow_two_sub_one_eq_mod x 2
  norm_num at h
  exact h

theorem and_mask32_eq (x : Nat) : x &&& 0xFFFFFFFF = x % 4294967296 := by
  have h := Nat.and_pow_two_sub_one_eq_mod x 32
  norm_num at h
  exact h

theorem shiftRight_two (x : Nat) : x >>> 2 = x / 4 := by
  have h := Nat.shiftRight_eq_div_pow x 2
  norm_num at h
  exact h

theorem shiftRight_34 (x : Nat) : x >>> 34 = x / 17179869184 := by
  have h := Nat.shiftRight_eq_div_pow x 34
  norm_num at h
  exact h

/-- The data-field mask of the DMI codec selects exactly bits 2 through 33. -/
theorem shl2_and_dmiMask (d : Nat) :
    (d <<< 2) &&& 0x3FFFFFFFC = (d % 4294967296) * 4 := by
  have hmask : (0x3FFFFFFFC : Nat) = (2 ^ 32 - 1) <<< 2 := by decide
  rw [hmask]
  apply Nat.eq_of_testBit_eq
  intro j
  simp only [Nat.testBit_and, Nat.testBit_shiftLeft, Nat.testBit_two_pow_sub_one]
  have hm : (d % 4294967296) * 4 = (d % 2 ^ 32) <<< 2 := by
    rw [Nat.shiftLeft_eq]
    norm_num
  rw [hm]
  simp only [Nat.testBit_shiftLeft, Nat.testBit_mod_two_pow]
  by_cases h2 : 2 ≤ j
  · by_cases h32 : j - 2 < 32 <;> simp [h2, h32, Bool.and_comm, Bool.and_assoc, Bool.and_left_comm]
  · simp [h2]

/-- Merging a low part below 2 to the k with a high part shifted up by k is
an addition. -/
theorem or_low_shl (lo hi k : Nat) (h : lo < 2 ^ k) :
    lo ||| (hi <<< k) = hi * 2 ^ k + lo := by
  rw [Nat.shiftLeft_eq, Nat.or_comm, Nat.mul_comm hi (2 ^ k), ← Nat.mul_add_lt_is_or h]

theorem or_low_mul4 (lo hi : Nat) (h : lo < 4) : lo ||| hi * 4 = hi * 4 + lo := by
  have h2 : lo < 2 ^ 2 := lt_of_lt_of_le h (by norm_num)
  have hs := or_low_shl lo hi 2 h2
  rw [show hi <<< 2 = hi * 4 by rw [Nat.shiftLeft_eq],
      show hi * 2 ^ 2 = hi * 4 by norm_num] at hs
  exact hs

/-! ### Error taxonomy

One constructor per raise site of the source, following the kinds named by
the spec (MalformedRegister, UnexpectedIrLength, UnknownIdcode,
BypassMismatch); the source raises them all as ValueError with a message.
-/

deriving instance DecidableEq for Except

inductive JtagError where
  | unexpectedIrLength (irlen : Nat)
  | unknownIdcode (idcode : Nat)
  | bypassMismatch (inp out : BitSequence)
  | malformedRegister (msg : String)
deriving DecidableEq, Repr

/-! ### Register catalog and IDCODE table -/

namespace RiscvJtagRegs

def BYPASS : BitSequence := BitSequence.ofStringMsb ("00000")

def IDCODE : BitSequence := BitSequence.ofStringMsb ("00001")

def DTMCS : BitSequence := BitSequence.ofStringMsb ("10000")

def DMI : BitSequence := BitSequence.ofStringMsb ("10001")

end RiscvJtagRegs

/-- Enumerated known-good JTAG IDCODE values: keys are integer code values,
values are a string description of the device. -/
def JtagIdCodes : List (Nat × String) :=
  [(0x00000001, "DEFAULT"), (0x20000913, "SIFIVE")]

/-- Membership and label lookup in the IDCODE table. -/
def JtagIdCodes.lookup (idcode : Nat) : Option String :=
  (JtagIdCodes.find? fun p => p.1 == idcode).map Prod.snd

/-! ### Register codecs -/

/-- Field-decoded dtmcontrol register value. -/
structure DtmControlValue where
  version : Nat
  abits : Nat
  dmistat : Nat
  idle : Nat
  dmireset : Nat
  dmihardreset : Nat
deriving DecidableEq, Repr

/-- Decode a dtmcontrol value from a bit sequence; raises MalformedRegister
when bit 15 is set or any of the bits from 18 up is set. -/
def DtmControlValue.from_bitseq (bitseq : BitSequence) : Except JtagError DtmControlValue :=
  let val := bitseq.toNat
  if (val >>> 15) &&& 0x1 ≠ 0 then
    .error (.malformedRegister ("Invalid DTMCONTROL bit 15 high value, should be hard-coded low "))
  else if val >>> 18 ≠ 0 then
    .error (.malformedRegister ("Invalid DTMCONTROL bits 18-31, should be zero "))
  else
    .ok { version := val &&& 0x0F
          abits := (val >>> 4) &&& 0x3F
          dmistat := (val >>> 10) &&& 0x3
          idle := (val >>> 12) &&& 0x7
          dmireset := (val >>> 16) &&& 0x1
          dmihardreset := (val >>> 17) &&& 0x1 }

/-- Field-decoded dmi register value. -/
structure DmiValue where
  len : Nat
  address : Nat
  data : Nat
  op : Nat
deriving DecidableEq, Repr

/-- Encode to a bit sequence of width len. -/
def DmiValue.to_bitseq (v : DmiValue) : BitSequence :=
  BitSequence.ofNat
    ((v.op &&& 0x03) ||| ((v.data <<< 2) &&& 0x3FFFFFFFC) ||| (v.address <<< 34)) v.len

/-- Decode from a bit sequence; the length is kept identical to that of the
input. -/
def DmiValue.from_bitseq (bitseq : BitSequence) : DmiValue :=
  let val := bitseq.toNat
  { len := bitseq.length
    op := val &&& 0x03
    data := (val >>> 2) &&& 0xFFFFFFFF
    address := val >>> 34 }

/-- Arithmetic form of the packed dmi word built by DmiValue.to_bitseq. -/
theorem dmi_pack (op data address : Nat) :
    (op &&& 0x03) ||| ((data <<< 2) &&& 0x3FFFFFFFC) ||| (address <<< 34)
      = address * 17179869184 + (data % 4294967296) * 4 + op % 4 := by
  rw [and_three_eq, shl2_and_dmiMask]
  rw [or_low_mul4 _ _ (Nat.mod_lt _ (by norm_num))]
  have hlt : (data % 4294967296) * 4 + op % 4 < 2 ^ 34 := by
    rw [show (2 : Nat) ^ 34 = 17179869184 by norm_num]
    omega
  rw [or_low_shl _ address 34 hlt,
      show (2 : Nat) ^ 34 = 17179869184 by norm_num]
  omega

/-! ### TAP driver interface and operations

Each operation is a function of the abstract driver and of the history of
driver calls issued so far; it returns its result (or the error raised)
together with the updated history.  The history records every driver call
in the order the source issues them.
-/

/-- One call issued to the external TAP driver. -/
inductive DriverCall where
  | reset
  | goIdle
  | captureIR
  | writeIR (bits : BitSequence)
  | changeState (s : String)
  | shiftAndUpdate (bits : BitSequence)
  | readDR (width : Nat)
  | detectRegisterSize
deriving DecidableEq, Repr

/-- Modelled from the spec: the abstract TAP driver capability consumed by
the core (the external pyftdi engine, not part of this repository).  A
response may depend on the full history of calls issued so far. -/
structure Driver where
  detectRegisterSize : List DriverCall → Nat
  readDR : List DriverCall → Nat → BitSequence
  shiftAndUpdate : List DriverCall → BitSequence → BitSequence

/-- Driver calls issued by detect_irlen before querying the register size. -/
def irPreamble (tr : List DriverCall) : List DriverCall :=
  tr ++ [.reset, .goIdle, .captureIR]

/-- Auto-detect the instruction register length; anything other than 5
raises UnexpectedIrLength. -/
def detect_irlen (d : Driver) (tr : List DriverCall) :
    Except JtagError Nat × List DriverCall :=
  let tr1 := irPreamble tr
  let irlen := d.detectRegisterSize tr1
  let tr2 := tr1 ++ [.detectRegisterSize]
  if irlen ≠ 5 then (.error (.unexpectedIrLength irlen), tr2)
  else (.ok irlen, tr2 ++ [.reset])

/-- Driver calls issued by read_idcode before reading the data register. -/
def idcodePreamble (from_reset : Bool) (tr : List DriverCall) : List DriverCall :=
  tr ++ [DriverCall.reset]
    ++ (if from_reset then [] else [DriverCall.writeIR RiscvJtagRegs.IDCODE])

/-- Read the default data register, IDCODE, and check for existence in the
known-good table; from_reset selects reading the data register directly
from the reset state instead of sending the IDCODE instruction first. -/
def read_idcode (from_reset : Bool) (d : Driver) (tr : List DriverCall) :
    Except JtagError Nat × List DriverCall :=
  let tr1 := idcodePreamble from_reset tr
  let idcode := (d.readDR tr1 32).toNat
  let tr2 := tr1 ++ [.readDR 32]
  match JtagIdCodes.lookup idcode with
  | none => (.error (.unknownIdcode idcode), tr2)
  | some _ => (.ok idcode, tr2 ++ [.reset])

/-- Default data sent through BYPASS when the caller supplies none: the
24-bit pattern 011011110000 repeated twice (written lsb first, as pyfdti
reads a plain string). -/
def defaultBypassInput : BitSequence :=
  BitSequence.ofStringLsb ("011011110000011011110000")

/-- Driver calls issued by bypass before shifting the data through. -/
def bypassPreamble (tr : List DriverCall) : List DriverCall :=
  tr ++ [DriverCall.reset, .writeIR RiscvJtagRegs.BYPASS, .goIdle,
    .changeState ("shift_dr")]

/-- Move into BYPASS, send the input, compensate the one-cycle latency by
one logical shift, and check equality with what comes back. -/
def bypass (inp? : Option BitSequence) (d : Driver) (tr : List DriverCall) :
    Except JtagError BitSequence × List DriverCall :=
  let inp := inp?.getD defaultBypassInput
  let tr1 := bypassPreamble tr
  let raw := d.shiftAndUpdate tr1 inp
  let tr2 := tr1 ++ [.shiftAndUpdate inp]
  let out := raw.lsr 1
  if out ≠ inp then (.error (.bypassMismatch inp out), tr2)
  else (.ok out, tr2 ++ [.reset])

/-- Driver calls issued by read_dtmcontrol before shifting the register. -/
def dtmcsPreamble (tr : List DriverCall) : List DriverCall :=
  tr ++ [DriverCall.reset, .writeIR RiscvJtagRegs.DTMCS, .goIdle,
    .changeState ("shift_dr")]

/-- Read the dtmcs (a.k.a. dtmcontrol) register; returns its integer and
decoded values. -/
def read_dtmcontrol (d : Driver) (tr : List DriverCall) :
    Except JtagError (Nat × DtmControlValue) × List DriverCall :=
  let tr1 := dtmcsPreamble tr
  let inp := BitSequence.ofNat 0 32
  let out := d.shiftAndUpdate tr1 inp
  let tr2 := tr1 ++ [.shiftAndUpdate inp]
  match DtmControlValue.from_bitseq out with
  | .error e => (.error e, tr2)
  | .ok v => (.ok (out.toNat, v), tr2 ++ [.reset])

/-- Driver calls issued by read_dmi and write_dmi before shifting. -/
def dmiPreamble (tr : List DriverCall) : List DriverCall :=
  tr ++ [DriverCall.reset, .writeIR RiscvJtagRegs.DMI, .goIdle,
    .changeState ("shift_dr")]

/-- Read the dmi register, of width 33 + abits. -/
def read_dmi (abits : Nat) (d : Driver) (tr : List DriverCall) :
    Except JtagError (Nat × DmiValue) × List DriverCall :=
  let tr1 := dmiPreamble tr
  let inp := BitSequence.ofNat 0 (abits + 33)
  let out := d.shiftAndUpdate tr1 inp
  let tr2 := tr1 ++ [.shiftAndUpdate inp]
  (.ok (out.toNat, DmiValue.from_bitseq out), tr2 ++ [.reset])

/-- Write the dmi register; a DmiValue argument is encoded first, a raw bit
sequence is sent as is. -/
def write_dmi (data : DmiValue ⊕ BitSequence) (d : Driver) (tr : List DriverCall) :
    Except JtagError (Nat × DmiValue) × List DriverCall :=
  let tr1 := dmiPreamble tr
  let bits := match data with
    | .inl v => v.to_bitseq
    | .inr b => b
  let out := d.shiftAndUpdate tr1 bits
  let tr2 := tr1 ++ [.shiftAndUpdate bits]
  (.ok (out.toNat, DmiValue.from_bitseq out), tr2 ++ [.reset])

/-- Check for a valid connection: the six-step startup sequence.  The first
failing step aborts the rest and its error is returned unchanged. -/
def check_connection (d : Driver) : Except JtagError Unit × List DriverCall :=
  match detect_irlen d [] with
  | (.error e, tr) => (.error e, tr)
  | (.ok _, tr1) =>
    match read_idcode true d tr1 with
    | (.error e, tr) => (.error e, tr)
    | (.ok _, tr2) =>
      match read_idcode false d tr2 with
      | (.error e, tr) => (.error e, tr)
      | (.ok _, tr3) =>
        match bypass none d tr3 with
        | (.error e, tr) => (.error e, tr)
        | (.ok _, tr4) =>
          match read_dtmcontrol d tr4 with
          | (.error e, tr) => (.error e, tr)
          | (.ok (_, dtmctrl), tr5) =>
            match read_dmi dtmctrl.abits d tr5 with
            | (.error e, tr) => (.error e, tr)
            | (.ok _, tr6) => (.ok (), tr6)

/-! ### Concrete drivers used to evaluate the operations -/

/-- Modelled from the spec: a transport functioning correctly in BYPASS
returns the input delayed by the one-cycle latency, so the first bit out
is the captured zero of the one-bit bypass register and the last input bit
is still inside. -/
def bypassLatencyShift (b : BitSequence) : BitSequence :=
  ⟨false :: b.bits.dropLast⟩

/-- Simulated healthy driver of the end-to-end check: IR length 5, IDCODE
0x20000913, BYPASS echo with the one-cycle latency, dtmcontrol reading
0x71 (version 1, abits 7), dmi reads returning zero. -/
def simDriver : Driver where
  detectRegisterSize := fun _ => 5
  readDR := fun _ w => BitSequence.ofNat 0x20000913 w
  shiftAndUpdate := fun _ b =>
    if b.length == 24 then bypassLatencyShift b
    else if b.length == 32 then BitSequence.ofNat 0x71 32
    else BitSequence.ofNat 0 b.length

/-- The healthy driver with the detected instruction register width
replaced by n. -/
def simDriverIr (n : Nat) : Driver :=
  { simDriver with detectRegisterSize := fun _ => n }

/-- The healthy driver with the value read from the data register replaced
by code. -/
def simDriverId (code : Nat) : Driver :=
  { simDriver with readDR := fun _ w => BitSequence.ofNat code w }

/-- A driver echoing BYPASS input with no latency, so the compensating
shift of the operation makes the output differ from the input. -/
def simDriverEcho : Driver :=
  { simDriver with shiftAndUpdate := fun _ b => b }

/-- The healthy driver with the dtmcontrol read returning 0x8000, which
has the reserved bit 15 set. -/
def simDriverBadDtm : Driver :=
  { simDriver with shiftAndUpdate := fun tr b =>
      if b.length == 32 then BitSequence.ofNat 0x8000 32
      else simDriver.shiftAndUpdate tr b }

/-! ### Claim theorems -/

/-- C5: instruction-register length detection: for every width returned by
the driver's register-size detection other than exactly 5 the operation
fails with UnexpectedIrLength carrying that width; when the detected width
is 5 it succeeds. -/
theorem c5_detect_irlen (d : Driver) (tr : List DriverCall) :
    (d.detectRegisterSize (irPreamble tr) ≠ 5 →
      (detect_irlen d tr).1 =
        .error (.unexpectedIrLength (d.detectRegisterSize (irPreamble tr)))) ∧
    (d.detectRegisterSize (irPreamble tr) = 5 → (detect_irlen d tr).1 = .ok 5) := by
  constructor
  · intro h
    simp only [detect_irlen]
    rw [if_pos h]
  · intro h
    simp [detect_irlen, h]

/-- Witness for C5 at the boundary widths 4 and 6 and at the good width 5. -/
theorem c5_detect_irlen_witness :
    (4 : Nat) ≠ 5 ∧ (detect_irlen (simDriverIr 4) []).1 = .error (.unexpectedIrLength 4) ∧
    (6 : Nat) ≠ 5 ∧ (detect_irlen (simDriverIr 6) []).1 = .error (.unexpectedIrLength 6) ∧
    (detect_irlen (simDriverIr 5) []).1 = .ok 5 :=
  ⟨by decide, (c5_detect_irlen (simDriverIr 4) []).1 (by decide),
   by decide, (c5_detect_irlen (simDriverIr 6) []).1 (by decide),
   (c5_detect_irlen (simDriverIr 5) []).2 (by decide)⟩

/-- C6: IDCODE lookup: 0x20000913 resolves to SIFIVE and succeeds,
0x00000001 resolves to DEFAULT and succeeds, and any value absent from the
allow-list, in particular 0xDEADBEEF, fails with UnknownIdcode. -/
theorem c6_read_idcode (fr : Bool) (d : Driver) (tr : List DriverCall) :
    JtagIdCodes.lookup 0x20000913 = some ("SIFIVE") ∧
    JtagIdCodes.lookup 0x00000001 = some ("DEFAULT") ∧
    JtagIdCodes.lookup 0xDEADBEEF = none ∧
    ((d.readDR (idcodePreamble fr tr) 32).toNat = 0x20000913 →
      (read_idcode fr d tr).1 = .ok 0x20000913) ∧
    ((d.readDR (idcodePreamble fr tr) 32).toNat = 0x00000001 →
      (read_idcode fr d tr).1 = .ok 0x00000001) ∧
    (JtagIdCodes.lookup (d.readDR (idcodePreamble fr tr) 32).toNat = none →
      (read_idcode fr d tr).1 =
        .error (.unknownIdcode (d.readDR (idcodePreamble fr tr) 32).toNat)) := by
  refine ⟨by decide, by decide, by decide, ?_, ?_, ?_⟩
  · intro h
    simp only [read_idcode]
    rw [h]
    rfl
  · intro h
    simp only [read_idcode]
    rw [h]
    rfl
  · intro h
    simp only [read_idcode]
    rw [h]

/-- Witness for C6 at the three concrete code values of the claim. -/
theorem c6_read_idcode_witness :
    (read_idcode true (simDriverId 0x20000913) []).1 = .ok 0x20000913 ∧
    (read_idcode false (simDriverId 0x00000001) []).1 = .ok 0x00000001 ∧
    (read_idcode true (simDriverId 0xDEADBEEF) []).1 = .error (.unknownIdcode 0xDEADBEEF) :=
  ⟨(c6_read_idcode true (simDriverId 0x20000913) []).2.2.2.1 (by decide),
   (c6_read_idcode false (simDriverId 0x00000001) []).2.2.2.2.1 (by decide),
   (c6_read_idcode true (simDriverId 0xDEADBEEF) []).2.2.2.2.2 (by decide)⟩

/-- C3: BYPASS self-test: with the default input and a driver whose shift
returns the input shifted by the one-cycle BYPASS latency, the operation's
compensating one-bit shift makes the returned sequence equal the original
input exactly and the operation succeeds; whenever the compensated output
differs from the input, the operation fails with BypassMismatch. -/
theorem c3_bypass_selftest (d : Driver) (tr : List DriverCall) :
    (d.shiftAndUpdate (bypassPreamble tr) defaultBypassInput =
        bypassLatencyShift defaultBypassInput →
      (bypassLatencyShift defaultBypassInput).lsr 1 = defaultBypassInput ∧
      (bypass none d tr).1 = .ok defaultBypassInput) ∧
    (∀ inp? : Option BitSequence,
      (d.shiftAndUpdate (bypassPreamble tr) (inp?.getD defaultBypassInput)).lsr 1 ≠
          inp?.getD defaultBypassInput →
      (bypass inp? d tr).1 =
        .error (.bypassMismatch (inp?.getD defaultBypassInput)
          ((d.shiftAndUpdate (bypassPreamble tr) (inp?.getD defaultBypassInput)).lsr 1))) := by
  constructor
  · intro h
    refine ⟨by decide, ?_⟩
    simp only [bypass, Option.getD_none]
    rw [h, show (bypassLatencyShift defaultBypassInput).lsr 1 = defaultBypassInput by decide]
    simp
  · intro inp? h
    simp only [bypass]
    rw [if_pos h]

/-- Witness for C3: the latency-echo driver passes the self-test on the
default input; the no-latency echo driver fails with BypassMismatch. -/
theorem c3_bypass_selftest_witness :
    ((bypassLatencyShift defaultBypassInput).lsr 1 = defaultBypassInput ∧
      (bypass none simDriver []).1 = .ok defaultBypassInput) ∧
    (bypass none simDriverEcho []).1 =
      .error (.bypassMismatch defaultBypassInput (defaultBypassInput.lsr 1)) :=
  ⟨(c3_bypass_selftest simDriver []).1 (by decide),
   (c3_bypass_selftest simDriverEcho []).2 none (by decide)⟩

/-- C2: DTMCONTROL decode: every 32-bit value with bit 15 clear and bits
18 to 31 clear decodes successfully into exactly the packed field values
(version bits 0-3, abits bits 4-9, dmistat bits 10-11, idle bits 12-14,
dmireset bit 16, dmihardreset bit 17); every 32-bit value with bit 15 set
or any of bits 18 to 31 set fails with MalformedRegister. -/
theorem c2_dtmcontrol_decode (val : Nat) (hval : val < 4294967296) :
    (val / 32768 % 2 = 0 ∧ val / 262144 = 0 →
      DtmControlValue.from_bitseq (BitSequence.ofNat val 32) =
        .ok { version := val % 16, abits := val / 16 % 64, dmistat := val / 1024 % 4,
              idle := val / 4096 % 8, dmireset := val / 65536 % 2,
              dmihardreset := val / 131072 % 2 }) ∧
    (val / 32768 % 2 = 1 ∨ val / 262144 ≠ 0 →
      ∃ msg, DtmControlValue.from_bitseq (BitSequence.ofNat val 32) =
        .error (.malformedRegister msg)) := by
  have hv : (BitSequence.ofNat val 32).toNat = val := by
    rw [BitSequence.toNat_ofNat]
    exact Nat.mod_eq_of_lt (by rw [show (2 : Nat) ^ 32 = 4294967296 by norm_num]; exact hval)
  have b15 : val >>> 15 = val / 32768 := by rw [Nat.shiftRight_eq_div_pow]
  have b18 : val >>> 18 = val / 262144 := by rw [Nat.shiftRight_eq_div_pow]
  have b4 : val >>> 4 = val / 16 := by rw [Nat.shiftRight_eq_div_pow]
  have b10 : val >>> 10 = val / 1024 := by rw [Nat.shiftRight_eq_div_pow]
  have b12 : val >>> 12 = val / 4096 := by rw [Nat.shiftRight_eq_div_pow]
  have b16 : val >>> 16 = val / 65536 := by rw [Nat.shiftRight_eq_div_pow]
  have b17 : val >>> 17 = val / 131072 := by rw [Nat.shiftRight_eq_div_pow]
  have m4 : ∀ x : Nat, x &&& 0x0F = x % 16 := fun x => by
    have h := Nat.and_pow_two_sub_one_eq_mod x 4
    norm_num at h
    exact h
  have m6 : ∀ x : Nat, x &&& 0x3F = x % 64 := fun x => by
    have h := Nat.and_pow_two_sub_one_eq_mod x 6
    norm_num at h
    exact h
  have m3 : ∀ x : Nat, x &&& 0x7 = x % 8 := fun x => by
    have h := Nat.and_pow_two_sub_one_eq_mod x 3
    norm_num at h
    exact h
  simp only [DtmControlValue.from_bitseq, hv]
  constructor
  · rintro ⟨h15, h18⟩
    have c1 : ¬((val >>> 15) &&& 0x1 ≠ 0) := by
      rw [b15, Nat.and_one_is_mod, h15]
      simp
    have c2 : ¬(val >>> 18 ≠ 0) := by
      rw [b18, h18]
      simp
    rw [if_neg c1, if_neg c2, m4 val, b4, m6 (val / 16), b10, and_three_eq (val / 1024),
        b12, m3 (val / 4096), b16, Nat.and_one_is_mod (val / 65536), b17,
        Nat.and_one_is_mod (val / 131072)]
  · intro h
    rcases h with h15 | h18
    · have c1 : (val >>> 15) &&& 0x1 ≠ 0 := by
        rw [b15, Nat.and_one_is_mod, h15]
        omega
      rw [if_pos c1]
      exact ⟨_, rfl⟩
    · by_cases c1 : (val >>> 15) &&& 0x1 ≠ 0
      · rw [if_pos c1]
        exact ⟨_, rfl⟩
      · have c2 : val >>> 18 ≠ 0 := by rw [b18]; exact h18
        rw [if_neg c1, if_pos c2]
        exact ⟨_, rfl⟩

/-- Witness for C2 at the well-formed value 223315 and at the malformed
value 32768, whose bit 15 is set. -/
theorem c2_dtmcontrol_decode_witness :
    DtmControlValue.from_bitseq (BitSequence.ofNat 223315 32) =
      .ok ⟨3, 5, 2, 6, 1, 1⟩ ∧
    (∃ msg, DtmControlValue.from_bitseq (BitSequence.ofNat 32768 32) =
      .error (.malformedRegister msg)) :=
  ⟨(c2_dtmcontrol_decode 223315 (by norm_num)).1 (by norm_num),
   (c2_dtmcontrol_decode 32768 (by norm_num)).2 (Or.inl (by norm_num))⟩

/-- C9: whenever bypass returns normally, the bit sequence it returns is
equal to its input: the caller-supplied one when given, else the default
24-bit pattern. -/
theorem c9_bypass_post (inp? : Option BitSequence) (d : Driver) (tr trFin : List DriverCall)
    (r : BitSequence) (h : bypass inp? d tr = (.ok r, trFin)) :
    (∀ i, inp? = some i → r = i) ∧ (inp? = none → r = defaultBypassInput) := by
  have hr : r = inp?.getD defaultBypassInput := by
    simp only [bypass] at h
    split at h
    · simp at h
    next hne =>
      rw [not_not] at hne
      simp only [Prod.mk.injEq, Except.ok.injEq] at h
      rw [← h.1, hne]
  exact ⟨fun i hi => by rw [hr, hi, Option.getD_some],
         fun hn => by rw [hr, hn, Option.getD_none]⟩

/-- Witness for C9: the healthy latency-echo driver makes bypass succeed
and return exactly the default input. -/
theorem c9_bypass_post_witness :
    bypass none simDriver [] =
      (.ok defaultBypassInput,
        bypassPreamble [] ++ [.shiftAndUpdate defaultBypassInput] ++ [.reset]) ∧
    defaultBypassInput = defaultBypassInput :=
  ⟨by decide,
   (c9_bypass_post none simDriver []
      (bypassPreamble [] ++ [.shiftAndUpdate defaultBypassInput] ++ [.reset])
      defaultBypassInput (by decide)).2 rfl⟩

/-- C10: every DtmControlValue produced by a successful decode has all its
fields within their declared widths. -/
theorem c10_dtm_field_ranges (b : BitSequence) (v : DtmControlValue)
    (_hlen : b.length = 32) (h : DtmControlValue.from_bitseq b = .ok v) :
    v.version < 16 ∧ v.abits < 64 ∧ v.dmistat < 4 ∧ v.idle < 8 ∧
      v.dmireset < 2 ∧ v.dmihardreset < 2 := by
  simp only [DtmControlValue.from_bitseq] at h
  split at h
  · simp at h
  split at h
  · simp at h
  simp only [Except.ok.injEq] at h
  subst h
  refine ⟨?_, ?_, ?_, ?_, ?_, ?_⟩
  · have hx := @Nat.and_lt_two_pow b.toNat 0x0F 4 (by norm_num)
    norm_num at hx
    exact hx
  · have hx := @Nat.and_lt_two_pow (b.toNat >>> 4) 0x3F 6 (by norm_num)
    norm_num at hx
    exact hx
  · have hx := @Nat.and_lt_two_pow (b.toNat >>> 10) 0x3 2 (by norm_num)
    norm_num at hx
    exact hx
  · have hx := @Nat.and_lt_two_pow (b.toNat >>> 12) 0x7 3 (by norm_num)
    norm_num at hx
    exact hx
  · show b.toNat >>> 16 &&& 1 < 2
    rw [Nat.and_one_is_mod]
    exact Nat.mod_lt _ (by norm_num)
  · show b.toNat >>> 17 &&& 1 < 2
    rw [Nat.and_one_is_mod]
    exact Nat.mod_lt _ (by norm_num)

/-- Witness for C10 at the 32-bit value 223315, which decodes to fields
version 3, abits 5, dmistat 2, idle 6, dmireset 1, dmihardreset 1. -/
theorem c10_dtm_field_ranges_witness :
    (3 : Nat) < 16 ∧ (5 : Nat) < 64 ∧ (2 : Nat) < 4 ∧ (6 : Nat) < 8 ∧
      (1 : Nat) < 2 ∧ (1 : Nat) < 2 :=
  c10_dtm_field_ranges (BitSequence.ofNat 223315 32) ⟨3, 5, 2, 6, 1, 1⟩
    (by decide) (by decide)

/-- C1 as frozen fails at the boundary abits = 0: the DmiValue with len 33,
address 0, data 2 to the 31, op 0 lies within the claim's field bounds
(op < 4, data < 2 to the 32, address below 2 to the (len - 34), and
len = 33 + 0), yet decoding its encoding loses the data field: op plus a
32-bit data field need 34 bits, while the encoder renders only len = 33
bits, truncating the top bit away. -/
theorem c1_dmi_roundtrip_cex :
    (0 : Nat) < 4 ∧ (2 : Nat) ^ 31 < 2 ^ 32 ∧ (0 : Nat) < 2 ^ (33 - 34) ∧
      (33 : Nat) = 33 + 0 ∧
      DmiValue.from_bitseq (DmiValue.to_bitseq ⟨33, 0, 2 ^ 31, 0⟩) ≠ ⟨33, 0, 2 ^ 31, 0⟩ := by
  decide

/-- C1 (amended): for registers with at least one address bit (abits at
least 1, so len = 33 + abits is at least 34), encode then decode is the
identity on every DmiValue within its field widths, and decode then encode
is the identity on every bit sequence of length 33 + abits. -/
theorem c1_dmi_roundtrip (abits : Nat) (v : DmiValue) (b : BitSequence)
    (hab : 1 ≤ abits) (hlen : v.len = 33 + abits) (hop : v.op < 4)
    (hdata : v.data < 2 ^ 32) (haddr : v.address < 2 ^ (v.len - 34))
    (_hb : b.length = 33 + abits) :
    DmiValue.from_bitseq v.to_bitseq = v ∧ (DmiValue.from_bitseq b).to_bitseq = b := by
  constructor
  · obtain ⟨len, address, data, op⟩ := v
    simp only at hlen hop hdata haddr
    subst hlen
    have hdata' : data < 4294967296 := by
      rw [show (2 : Nat) ^ 32 = 4294967296 by norm_num] at hdata
      exact hdata
    rw [show 33 + abits - 34 = abits - 1 by omega] at haddr
    simp only [DmiValue.to_bitseq, DmiValue.from_bitseq]
    rw [dmi_pack]
    have hvlt : address * 17179869184 + data % 4294967296 * 4 + op % 4 < 2 ^ (33 + abits) := by
      rw [show 33 + abits = 34 + (abits - 1) by omega, pow_add,
          show (2 : Nat) ^ 34 = 17179869184 by norm_num]
      generalize (2 : Nat) ^ (abits - 1) = E at haddr ⊢
      have hpos : 0 < E := by
        rcases Nat.eq_zero_or_pos E with h | h
        · omega
        · exact h
      have := Nat.mod_lt data (show 0 < 4294967296 by norm_num)
      nlinarith [Nat.mod_lt op (show 0 < 4 by norm_num),
        Nat.mul_le_mul_right (17179869184 : Nat) (Nat.le_sub_one_of_lt haddr)]
    simp only [BitSequence.length_ofNat, BitSequence.toNat_ofNat]
    rw [Nat.mod_eq_of_lt hvlt]
    simp only [and_three_eq, shiftRight_two, and_mask32_eq, shiftRight_34,
      DmiValue.mk.injEq]
    exact ⟨trivial, by omega, by omega, by omega⟩
  · simp only [DmiValue.from_bitseq, DmiValue.to_bitseq]
    rw [dmi_pack]
    simp only [and_three_eq, shiftRight_two, and_mask32_eq, shiftRight_34]
    rw [show b.toNat / 17179869184 * 17179869184 + b.toNat / 4 % 4294967296 % 4294967296 * 4
          + b.toNat % 4 % 4 = b.toNat by omega]
    exact BitSequence.ofNat_toNat b

/-- Witness for C1 at abits 7: a fully populated 40-bit value round-trips
in both directions. -/
theorem c1_dmi_roundtrip_witness :
    (1 : Nat) ≤ 7 ∧ (40 : Nat) = 33 + 7 ∧ (1 : Nat) < 4 ∧
      (3735928559 : Nat) < 2 ^ 32 ∧ (63 : Nat) < 2 ^ (40 - 34) ∧
      (BitSequence.ofNat 123456789 40).length = 33 + 7 ∧
      DmiValue.from_bitseq (DmiValue.to_bitseq ⟨40, 63, 3735928559, 1⟩) =
        ⟨40, 63, 3735928559, 1⟩ ∧
      (DmiValue.from_bitseq (BitSequence.ofNat 123456789 40)).to_bitseq =
        BitSequence.ofNat 123456789 40 := by
  have h := c1_dmi_roundtrip 7 ⟨40, 63, 3735928559, 1⟩ (BitSequence.ofNat 123456789 40)
    (by decide) (by decide) (by decide) (by decide) (by decide) (by decide)
  exact ⟨by decide, by decide, by decide, by decide, by decide, by decide, h.1, h.2⟩

/-- C7 as frozen fails on error paths: with the driver reporting IR length
4, detect_irlen raises, and that execution's final driver call is the
register-size query, not a reset, so the TAP is not left reset by the
failing operation itself. -/
theorem c7_reset_bracketing_cex :
    (detect_irlen (simDriverIr 4) []).1 = .error (.unexpectedIrLength 4) ∧
    (detect_irlen (simDriverIr 4) []).2.getLast? = some DriverCall.detectRegisterSize ∧
    (detect_irlen (simDriverIr 4) []).2.getLast? ≠ some DriverCall.reset := by
  decide

/-- C7 (amended): every TAP operation issues a driver reset as its first
driver call, and on every successful execution also issues a driver reset
as its final driver call before returning; on a failing execution the
trailing reset is not guaranteed. -/
theorem c7_reset_bracketing (d : Driver) (tr : List DriverCall) (fr : Bool)
    (inp? : Option BitSequence) (abits : Nat) (wdata : DmiValue ⊕ BitSequence) :
    (∃ s, (detect_irlen d tr).2 = tr ++ s ∧ s.head? = some .reset ∧
      ((∃ n, (detect_irlen d tr).1 = .ok n) → s.getLast? = some .reset)) ∧
    (∃ s, (read_idcode fr d tr).2 = tr ++ s ∧ s.head? = some .reset ∧
      ((∃ n, (read_idcode fr d tr).1 = .ok n) → s.getLast? = some .reset)) ∧
    (∃ s, (bypass inp? d tr).2 = tr ++ s ∧ s.head? = some .reset ∧
      ((∃ r, (bypass inp? d tr).1 = .ok r) → s.getLast? = some .reset)) ∧
    (∃ s, (read_dtmcontrol d tr).2 = tr ++ s ∧ s.head? = some .reset ∧
      ((∃ r, (read_dtmcontrol d tr).1 = .ok r) → s.getLast? = some .reset)) ∧
    (∃ s, (read_dmi abits d tr).2 = tr ++ s ∧ s.head? = some .reset ∧
      s.getLast? = some .reset) ∧
    (∃ s, (write_dmi wdata d tr).2 = tr ++ s ∧ s.head? = some .reset ∧
      s.getLast? = some .reset) := by
  refine ⟨?_, ?_, ?_, ?_, ?_, ?_⟩
  · by_cases h : d.detectRegisterSize (irPreamble tr) ≠ 5
    · refine ⟨[.reset, .goIdle, .captureIR, .detectRegisterSize], ?_, rfl, ?_⟩
      · simp only [detect_irlen]
        rw [if_pos h]
        simp [irPreamble]
      · rintro ⟨n, hn⟩
        simp only [detect_irlen] at hn
        rw [if_pos h] at hn
        simp at hn
    · refine ⟨[.reset, .goIdle, .captureIR, .detectRegisterSize, .reset], ?_, rfl,
        fun _ => rfl⟩
      simp only [detect_irlen]
      rw [if_neg h]
      simp [irPreamble]
  · rcases hm : JtagIdCodes.lookup ((d.readDR (idcodePreamble fr tr) 32).toNat)
        with _ | lbl
    · refine ⟨[DriverCall.reset]
        ++ (if fr then [] else [DriverCall.writeIR RiscvJtagRegs.IDCODE])
        ++ [.readDR 32], ?_, ?_, ?_⟩
      · simp only [read_idcode]
        rw [hm]
        simp [idcodePreamble]
      · cases fr <;> rfl
      · rintro ⟨n, hn⟩
        simp only [read_idcode] at hn
        rw [hm] at hn
        simp at hn
    · refine ⟨[DriverCall.reset]
        ++ (if fr then [] else [DriverCall.writeIR RiscvJtagRegs.IDCODE])
        ++ [.readDR 32] ++ [.reset], ?_, ?_, ?_⟩
      · simp only [read_idcode]
        rw [hm]
        simp [idcodePreamble]
      · cases fr <;> rfl
      · intro _
        cases fr <;> rfl
  · by_cases h : (d.shiftAndUpdate (bypassPreamble tr) (inp?.getD defaultBypassInput)).lsr 1
        ≠ inp?.getD defaultBypassInput
    · refine ⟨[DriverCall.reset, .writeIR RiscvJtagRegs.BYPASS, .goIdle,
        .changeState ("shift_dr"), .shiftAndUpdate (inp?.getD defaultBypassInput)],
        ?_, rfl, ?_⟩
      · simp only [bypass]
        rw [if_pos h]
        simp [bypassPreamble]
      · rintro ⟨r, hr⟩
        simp only [bypass] at hr
        rw [if_pos h] at hr
        simp at hr
    · refine ⟨[DriverCall.reset, .writeIR RiscvJtagRegs.BYPASS, .goIdle,
        .changeState ("shift_dr"), .shiftAndUpdate (inp?.getD defaultBypassInput),
        .reset], ?_, rfl, fun _ => rfl⟩
      simp only [bypass]
      rw [if_neg h]
      simp [bypassPreamble]
  · rcases hm : DtmControlValue.from_bitseq
        (d.shiftAndUpdate (dtmcsPreamble tr) (BitSequence.ofNat 0 32)) with e | v
    · refine ⟨[DriverCall.reset, .writeIR RiscvJtagRegs.DTMCS, .goIdle,
        .changeState ("shift_dr"), .shiftAndUpdate (BitSequence.ofNat 0 32)],
        ?_, rfl, ?_⟩
      · simp only [read_dtmcontrol]
        rw [hm]
        simp [dtmcsPreamble]
      · rintro ⟨r, hr⟩
        simp only [read_dtmcontrol] at hr
        rw [hm] at hr
        simp at hr
    · refine ⟨[DriverCall.reset, .writeIR RiscvJtagRegs.DTMCS, .goIdle,
        .changeState ("shift_dr"), .shiftAndUpdate (BitSequence.ofNat 0 32),
        .reset], ?_, rfl, fun _ => rfl⟩
      simp only [read_dtmcontrol]
      rw [hm]
      simp [dtmcsPreamble]
  · refine ⟨[DriverCall.reset, .writeIR RiscvJtagRegs.DMI, .goIdle,
      .changeState ("shift_dr"), .shiftAndUpdate (BitSequence.ofNat 0 (abits + 33)),
      .reset], ?_, rfl, rfl⟩
    simp [read_dmi, dmiPreamble]
  · refine ⟨[DriverCall.reset, .writeIR RiscvJtagRegs.DMI, .goIdle,
      .changeState ("shift_dr"),
      .shiftAndUpdate (match wdata with | .inl v => v.to_bitseq | .inr b => b),
      .reset], ?_, rfl, rfl⟩
    rcases wdata with v | b <;> simp [write_dmi, dmiPreamble]

/-- Witness for C7: on the healthy driver every operation both starts and
ends its driver-call suffix with a reset. -/
theorem c7_reset_bracketing_witness :
    (detect_irlen simDriver []).2.head? = some DriverCall.reset ∧
    (detect_irlen simDriver []).2.getLast? = some DriverCall.reset := by
  obtain ⟨⟨s, hs, hhead, hlast⟩, -, -, -, -, -⟩ :=
    c7_reset_bracketing simDriver [] true none 0 (.inr (BitSequence.ofNat 0 40))
  rw [hs, List.nil_append]
  exact ⟨hhead, hlast ⟨5, by decide⟩⟩

/-! ### Dynamic return shapes of the operations

Python is dynamically typed; this universe records the shape each
operation's return statement produces, so that presence or absence of a
decoded structured form next to the raw wire form can be stated. -/

/-- Shape of a TAP operation's return value. -/
inductive TapReturn where
  | rawInt (v : Nat)
  | rawBits (b : BitSequence)
  | intDtm (raw : Nat) (decoded : DtmControlValue)
  | intDmi (raw : Nat) (decoded : DmiValue)
deriving DecidableEq, Repr

/-- Whether a return value carries a decoded structured form next to the
raw wire form. -/
def TapReturn.hasDecodedForm : TapReturn → Bool
  | .intDtm _ _ => true
  | .intDmi _ _ => true
  | _ => false

/-- What detect_irlen returns: the bare integer width. -/
def detect_irlen_return (d : Driver) (tr : List DriverCall) : Except JtagError TapReturn :=
  (detect_irlen d tr).1.map TapReturn.rawInt

/-- What read_idcode returns: the bare integer code. -/
def read_idcode_return (fr : Bool) (d : Driver) (tr : List DriverCall) :
    Except JtagError TapReturn :=
  (read_idcode fr d tr).1.map TapReturn.rawInt

/-- What bypass returns: the bare compensated bit sequence. -/
def bypass_return (inp? : Option BitSequence) (d : Driver) (tr : List DriverCall) :
    Except JtagError TapReturn :=
  (bypass inp? d tr).1.map TapReturn.rawBits

/-- What read_dtmcontrol returns: the raw integer with the decoded value. -/
def read_dtmcontrol_return (d : Driver) (tr : List DriverCall) :
    Except JtagError TapReturn :=
  (read_dtmcontrol d tr).1.map fun p => TapReturn.intDtm p.1 p.2

/-- What read_dmi returns: the raw integer with the decoded value. -/
def read_dmi_return (abits : Nat) (d : Driver) (tr : List DriverCall) :
    Except JtagError TapReturn :=
  (read_dmi abits d tr).1.map fun p => TapReturn.intDmi p.1 p.2

/-- What write_dmi returns: the raw integer with the decoded value. -/
def write_dmi_return (wdata : DmiValue ⊕ BitSequence) (d : Driver) (tr : List DriverCall) :
    Except JtagError TapReturn :=
  (write_dmi wdata d tr).1.map fun p => TapReturn.intDmi p.1 p.2

/-- C8 as frozen is false: detect_irlen succeeds on the healthy driver yet
returns only the raw integer width, with no decoded structured form next
to it. -/
theorem c8_dual_forms_cex :
    detect_irlen_return simDriver [] = .ok (.rawInt 5) ∧
    (TapReturn.rawInt 5).hasDecodedForm = false := by
  decide

/-- C8 (amended): read_dtmcontrol, read_dmi and write_dmi return both the
raw integer and the decoded structured form of the same wire word on
success; detect_irlen and read_idcode return only the raw integer, and
bypass returns only the bit sequence. -/
theorem c8_dual_forms (d : Driver) (tr : List DriverCall) (fr : Bool)
    (inp? : Option BitSequence) (abits : Nat) (wdata : DmiValue ⊕ BitSequence) :
    (∀ r, detect_irlen_return d tr = .ok r → ∃ n, r = .rawInt n) ∧
    (∀ r, read_idcode_return fr d tr = .ok r → ∃ n, r = .rawInt n) ∧
    (∀ r, bypass_return inp? d tr = .ok r → ∃ b, r = .rawBits b) ∧
    (∀ r, read_dtmcontrol_return d tr = .ok r → ∃ out dec,
      DtmControlValue.from_bitseq out = .ok dec ∧ r = .intDtm out.toNat dec) ∧
    (∀ r, read_dmi_return abits d tr = .ok r → ∃ out,
      r = .intDmi out.toNat (DmiValue.from_bitseq out)) ∧
    (∀ r, write_dmi_return wdata d tr = .ok r → ∃ out,
      r = .intDmi out.toNat (DmiValue.from_bitseq out)) := by
  refine ⟨?_, ?_, ?_, ?_, ?_, ?_⟩
  · intro r hr
    simp only [detect_irlen_return] at hr
    rcases hd : (detect_irlen d tr).1 with e | n
    · rw [hd] at hr
      simp [Except.map] at hr
    · rw [hd] at hr
      simp [Except.map] at hr
      exact ⟨n, hr.symm⟩
  · intro r hr
    simp only [read_idcode_return] at hr
    rcases hd : (read_idcode fr d tr).1 with e | n
    · rw [hd] at hr
      simp [Except.map] at hr
    · rw [hd] at hr
      simp [Except.map] at hr
      exact ⟨n, hr.symm⟩
  · intro r hr
    simp only [bypass_return] at hr
    rcases hd : (bypass inp? d tr).1 with e | b
    · rw [hd] at hr
      simp [Except.map] at hr
    · rw [hd] at hr
      simp [Except.map] at hr
      exact ⟨b, hr.symm⟩
  · intro r hr
    simp only [read_dtmcontrol_return, read_dtmcontrol] at hr
    rcases hm : DtmControlValue.from_bitseq
        (d.shiftAndUpdate (dtmcsPreamble tr) (BitSequence.ofNat 0 32)) with e | v
    · rw [hm] at hr
      simp [Except.map] at hr
    · rw [hm] at hr
      simp [Except.map] at hr
      exact ⟨d.shiftAndUpdate (dtmcsPreamble tr) (BitSequence.ofNat 0 32), v, hm, hr.symm⟩
  · intro r hr
    simp only [read_dmi_return, read_dmi, Except.map, Except.ok.injEq] at hr
    exact ⟨d.shiftAndUpdate (dmiPreamble tr) (BitSequence.ofNat 0 (abits + 33)), hr.symm⟩
  · rcases wdata with v | b
    · intro r hr
      simp only [write_dmi_return, write_dmi, Except.map, Except.ok.injEq] at hr
      exact ⟨d.shiftAndUpdate (dmiPreamble tr) v.to_bitseq, hr.symm⟩
    · intro r hr
      simp only [write_dmi_return, write_dmi, Except.map, Except.ok.injEq] at hr
      exact ⟨d.shiftAndUpdate (dmiPreamble tr) b, hr.symm⟩

/-- Witness for C8 on the healthy driver: detect_irlen yields a bare
integer, read_dtmcontrol yields the dual raw and decoded forms. -/
theorem c8_dual_forms_witness :
    (∃ n, TapReturn.rawInt 5 = .rawInt n) ∧
    (∃ out dec, DtmControlValue.from_bitseq out = .ok dec ∧
      TapReturn.intDtm 113 ⟨1, 7, 0, 0, 0, 0⟩ = .intDtm out.toNat dec) :=
  ⟨(c8_dual_forms simDriver [] true none 0 (.inr (BitSequence.ofNat 0 40))).1
      (.rawInt 5) (by decide),
   (c8_dual_forms simDriver [] true none 0 (.inr (BitSequence.ofNat 0 40))).2.2.2.1
      (.intDtm 113 ⟨1, 7, 0, 0, 0, 0⟩) (by decide)⟩

/-! ### The six validation steps, each started from the trace left by the
previous one, exactly as check_connection chains them -/

def ccS1 (d : Driver) : Except JtagError Nat × List DriverCall := detect_irlen d []

def ccS2 (d : Driver) : Except JtagError Nat × List DriverCall :=
  read_idcode true d (ccS1 d).2

def ccS3 (d : Driver) : Except JtagError Nat × List DriverCall :=
  read_idcode false d (ccS2 d).2

def ccS4 (d : Driver) : Except JtagError BitSequence × List DriverCall :=
  bypass none d (ccS3 d).2

def ccS5 (d : Driver) : Except JtagError (Nat × DtmControlValue) × List DriverCall :=
  read_dtmcontrol d (ccS4 d).2

def ccS6 (d : Driver) (abits : Nat) : Except JtagError (Nat × DmiValue) × List DriverCall :=
  read_dmi abits d (ccS5 d).2

/-- C4: check_connection runs exactly the six steps in order (detect IR
length, read IDCODE from reset, read IDCODE via explicit selection, BYPASS
self-test, read DTMCONTROL, read DMI), each picking up the driver-call
trace where the previous step left it; the abits decoded from DTMCONTROL
is passed verbatim to the DMI read; the first failing step aborts the
remaining ones and its error is surfaced unchanged, no other error being
introduced. -/
theorem c4_check_connection (d : Driver) :
    (∀ e, (ccS1 d).1 = .error e → check_connection d = (.error e, (ccS1 d).2)) ∧
    ((∃ n, (ccS1 d).1 = .ok n) →
      (∀ e, (ccS2 d).1 = .error e → check_connection d = (.error e, (ccS2 d).2)) ∧
      ((∃ n, (ccS2 d).1 = .ok n) →
        (∀ e, (ccS3 d).1 = .error e → check_connection d = (.error e, (ccS3 d).2)) ∧
        ((∃ n, (ccS3 d).1 = .ok n) →
          (∀ e, (ccS4 d).1 = .error e → check_connection d = (.error e, (ccS4 d).2)) ∧
          ((∃ b, (ccS4 d).1 = .ok b) →
            (∀ e, (ccS5 d).1 = .error e → check_connection d = (.error e, (ccS5 d).2)) ∧
            (∀ raw dtm, (ccS5 d).1 = .ok (raw, dtm) →
              check_connection d = (.ok (), (ccS6 d dtm.abits).2)))))) := by
  rcases h1 : ccS1 d with ⟨r1, t1⟩
  have e1 : detect_irlen d [] = (r1, t1) := h1
  constructor
  · intro e he
    have he2 : r1 = .error e := he
    subst he2
    simp [check_connection, e1, h1]
  · rintro ⟨n1, hn1⟩
    have hn : r1 = .ok n1 := hn1
    subst hn
    rcases h2 : ccS2 d with ⟨r2, t2⟩
    have e2 : read_idcode true d t1 = (r2, t2) := by
      rw [show t1 = (ccS1 d).2 by rw [h1]]
      exact h2
    constructor
    · intro e he
      have he2 : r2 = .error e := he
      subst he2
      simp [check_connection, e1, e2, h2]
    · rintro ⟨n2, hn2⟩
      have hn : r2 = .ok n2 := hn2
      subst hn
      rcases h3 : ccS3 d with ⟨r3, t3⟩
      have e3 : read_idcode false d t2 = (r3, t3) := by
        rw [show t2 = (ccS2 d).2 by rw [h2]]
        exact h3
      constructor
      · intro e he
        have he2 : r3 = .error e := he
        subst he2
        simp [check_connection, e1, e2, e3, h3]
      · rintro ⟨n3, hn3⟩
        have hn : r3 = .ok n3 := hn3
        subst hn
        rcases h4 : ccS4 d with ⟨r4, t4⟩
        have e4 : bypass none d t3 = (r4, t4) := by
          rw [show t3 = (ccS3 d).2 by rw [h3]]
          exact h4
        constructor
        · intro e he
          have he2 : r4 = .error e := he
          subst he2
          simp [check_connection, e1, e2, e3, e4, h4]
        · rintro ⟨b4, hb4⟩
          have hn : r4 = .ok b4 := hb4
          subst hn
          rcases h5 : ccS5 d with ⟨r5, t5⟩
          have e5 : read_dtmcontrol d t4 = (r5, t5) := by
            rw [show t4 = (ccS4 d).2 by rw [h4]]
            exact h5
          constructor
          · intro e he
            have he2 : r5 = .error e := he
            subst he2
            simp [check_connection, e1, e2, e3, e4, e5, h5]
          · intro raw dtm hok
            have hn : r5 = .ok (raw, dtm) := hok
            subst hn
            simp [check_connection, e1, e2, e3, e4, e5, ccS6, h5, read_dmi]

/-- Witness for C4: on the healthy driver all six steps pass and the DMI
read is issued with the abits value 7 decoded from DTMCONTROL. -/
theorem c4_check_connection_witness :
    check_connection simDriver = (.ok (), (ccS6 simDriver 7).2) := by
  have h := c4_check_connection simDriver
  have h2 := h.2 ⟨5, by decide⟩
  have h3 := h2.2 ⟨0x20000913, by decide⟩
  have h4 := h3.2 ⟨0x20000913, by decide⟩
  have h5 := h4.2 ⟨defaultBypassInput, by decide⟩
  exact h5.2 113 ⟨1, 7, 0, 0, 0, 0⟩ (by decide)

end OsciJtag
